import Mathlib

/-!
Shallow embedding of the token-gated usage-accounting engine and the
response cache of Project_QRRag, translated from:

* src/Module/core/auth_service.py  (AccessToken, AuthService)
* src/Module/cache_sqlite.py       (WhiskCacheSQLite)
* src/Module/core/image_service.py (calculate_image_hash)

Machine conventions: timestamps are natural numbers (the Python code uses
float epoch seconds; only ordering matters to the logic), the current
clock reading time.time() is passed explicitly as a parameter now, and
the Python dict of tokens is an association list keyed by token_id.
Output image lists are lists of strings (the Python branch that extracts
a filename from a PIL object is the identity on string inputs).
-/

namespace QRRag

/-- One entry of generation_records, as built in
AuthService.record_image_usage (auth_service.py lines 230-236). -/
structure GenRecord where
  timestamp : Nat
  datetime : String
  image_hash : String
  style : String
  output_files : List String
deriving DecidableEq

/-- The AccessToken dataclass of auth_service.py lines 12-24. -/
structure AccessToken where
  token_id : String
  theme : String
  usage_count : Nat
  max_usage_count : Nat
  created_at : Nat
  usage_valid_until : Nat
  access_valid_until : Nat
  used_image_hashes : List String
  used_styles : List String
  generation_records : List GenRecord
deriving DecidableEq

/-- Property is_usage_valid (auth_service.py lines 26-30):
time.time() < usage_valid_until and usage_count < max_usage_count. -/
def AccessToken.is_usage_valid (t : AccessToken) (now : Nat) : Bool :=
  decide (now < t.usage_valid_until) && decide (t.usage_count < t.max_usage_count)

/-- Property is_access_valid (auth_service.py lines 32-35):
time.time() < access_valid_until. -/
def AccessToken.is_access_valid (t : AccessToken) (now : Nat) : Bool :=
  decide (now < t.access_valid_until)

/-- Property can_use_more_styles (auth_service.py lines 37-41):
len(used_styles) < 3. -/
def AccessToken.can_use_more_styles (t : AccessToken) : Bool :=
  decide (t.used_styles.length < 3)

/-- Method has_used_image (auth_service.py lines 43-45). -/
def AccessToken.has_used_image (t : AccessToken) (image_hash : String) : Bool :=
  decide (image_hash ∈ t.used_image_hashes)

/-- Method add_image_hash (auth_service.py lines 47-50): append the hash
when it is not already present. -/
def AccessToken.add_image_hash (t : AccessToken) (image_hash : String) : AccessToken :=
  if image_hash ∉ t.used_image_hashes then
    { t with used_image_hashes := t.used_image_hashes ++ [image_hash] }
  else t

/-- Method add_used_style (auth_service.py lines 52-55): append the style
when it is not already present and can_use_more_styles holds. -/
def AccessToken.add_used_style (t : AccessToken) (style : String) : AccessToken :=
  if style ∉ t.used_styles ∧ t.can_use_more_styles = true then
    { t with used_styles := t.used_styles ++ [style] }
  else t

/-- Method add_generation_record (auth_service.py lines 57-60): append the
record and increment usage_count. -/
def AccessToken.add_generation_record (t : AccessToken) (record : GenRecord) : AccessToken :=
  { t with generation_records := t.generation_records ++ [record],
           usage_count := t.usage_count + 1 }

/-- The AuthService.tokens dictionary, token_id keyed. -/
abbrev TokenMap := List (String × AccessToken)

/-- Dictionary lookup self.tokens[token_id] on the association list. -/
def lookupToken : TokenMap → String → Option AccessToken
  | [], _ => none
  | (k, v) :: rest, tid => if k = tid then some v else lookupToken rest tid

/-- In-place mutation of the token object held in the dictionary: the
binding of tid is replaced by the updated token. -/
def updateToken : TokenMap → String → AccessToken → TokenMap
  | [], _, _ => []
  | (k, v) :: rest, tid, t =>
      if k = tid then (k, t) :: rest else (k, v) :: updateToken rest tid t

/-- AuthService.validate_token (auth_service.py lines 123-141): returns the
triple (valid, error message, token). -/
def validate_token (tokens : TokenMap) (now : Nat) (token_id : String) :
    Bool × Option String × Option AccessToken :=
  match lookupToken tokens token_id with
  | none => (false, some "无效的访问令牌", none)
  | some token =>
      if !(token.is_access_valid now) then (false, some "令牌已过期", none)
      else (true, none, some token)

/-- AuthService.can_generate_image (auth_service.py lines 143-163): after
validate_token, a token failing is_usage_valid is rejected with the
quota message when usage_count >= max_usage_count, and with the
usage-window message otherwise. -/
def can_generate_image (tokens : TokenMap) (now : Nat) (token_id : String) :
    Bool × Option String × Option AccessToken :=
  match validate_token tokens now token_id with
  | (true, _, some token) =>
      if !(token.is_usage_valid now) then
        if token.max_usage_count ≤ token.usage_count then
          (false, some "已达到最大使用次数", some token)
        else
          (false, some "使用期已过期", some token)
      else (true, none, some token)
  | (_, msg, _) => (false, msg, none)

/-- AuthService.validate_image_hash (auth_service.py lines 165-191): with a
non-empty used_image_hashes list, accept exactly the hashes already in the
list; with an empty list accept anything. -/
def validate_image_hash (tokens : TokenMap) (now : Nat) (token_id image_hash : String) :
    Bool × Option String :=
  match validate_token tokens now token_id with
  | (true, _, some token) =>
      if 0 < token.used_image_hashes.length then
        if image_hash ∈ token.used_image_hashes then (true, none)
        else (false, some "此令牌已用于其他图片，不能使用新图片")
      else (true, none)
  | (_, msg, _) => (false, msg)

/-- AuthService.record_image_usage (auth_service.py lines 193-242): after a
successful validate_token the token is updated by add_image_hash,
add_used_style and add_generation_record, written back, and True is
returned; dt stands for the datetime.now() string of the record. -/
def record_image_usage (tokens : TokenMap) (now : Nat) (dt : String)
    (token_id image_hash style : String) (output_images : List String) :
    TokenMap × Bool :=
  match validate_token tokens now token_id with
  | (true, _, some token) =>
      let token1 := token.add_image_hash image_hash
      let token2 := token1.add_used_style style
      let record : GenRecord :=
        { timestamp := now, datetime := dt, image_hash := image_hash,
          style := style, output_files := output_images }
      let token3 := token2.add_generation_record record
      (updateToken tokens token_id token3, true)
  | _ => (tokens, false)

/-- One record_image_usage call with all of its arguments, used to state
properties over arbitrary sequences of calls. -/
structure UsageCall where
  now : Nat
  dt : String
  token_id : String
  image_hash : String
  style : String
  outputs : List String
deriving DecidableEq

/-- Apply a sequence of record_image_usage calls in order, threading the
token dictionary through. -/
def applyCalls (tokens : TokenMap) : List UsageCall → TokenMap
  | [] => tokens
  | c :: rest =>
      applyCalls (record_image_usage tokens c.now c.dt c.token_id
        c.image_hash c.style c.outputs).1 rest

/-- The usage_count the store holds for a token id (0 when absent). -/
def countOf (tokens : TokenMap) (token_id : String) : Nat :=
  ((lookupToken tokens token_id).map (fun t => t.usage_count)).getD 0

/-- The number of generation records the store holds for a token id. -/
def recordsLenOf (tokens : TokenMap) (token_id : String) : Nat :=
  ((lookupToken tokens token_id).map (fun t => t.generation_records.length)).getD 0

/-- Every token in the store has at most 3 used styles. -/
def stylesBounded (tokens : TokenMap) : Prop :=
  ∀ tid t, lookupToken tokens tid = some t → t.used_styles.length ≤ 3

/-- Every token in the store has a duplicate-free used_image_hashes list. -/
def hashesNodup (tokens : TokenMap) : Prop :=
  ∀ tid t, lookupToken tokens tid = some t → t.used_image_hashes.Nodup

/-! Embedding of the SQLite-backed response cache (cache_sqlite.py).
Each table is a finite map from key to value; the MD5 key derivation
hashlib.md5(x.encode()).hexdigest() is an opaque parameter md5. -/

/-- Lookup of a key in one cache table, as the SELECT by primary key. -/
def tableLookup : List (String × String) → String → Option String
  | [], _ => none
  | (k, v) :: rest, key => if k = key then some v else tableLookup rest key

/-- SQLite INSERT OR REPLACE on a table with the given primary key: the
conflicting row is deleted and the new row inserted. -/
def insertOrReplace (table : List (String × String)) (key val : String) :
    List (String × String) :=
  (table.filter (fun kv => kv.1 ≠ key)) ++ [(key, val)]

/-- The two tables of WhiskCacheSQLite: caption_cache and story_cache. -/
structure CacheState where
  caption_cache : List (String × String)
  story_cache : List (String × String)
deriving DecidableEq

/-- WhiskCacheSQLite.save_caption (cache_sqlite.py lines 211-221): INSERT OR
REPLACE INTO caption_cache keyed by md5 of the base64 string. -/
def save_caption (md5 : String → String) (st : CacheState)
    (image_base64 caption : String) : CacheState :=
  { st with caption_cache :=
      insertOrReplace st.caption_cache (md5 image_base64) caption }

/-- WhiskCacheSQLite.get_caption (cache_sqlite.py lines 194-209). -/
def get_caption (md5 : String → String) (st : CacheState)
    (image_base64 : String) : Option String :=
  tableLookup st.caption_cache (md5 image_base64)

/-- WhiskCacheSQLite.save_story_prompt (cache_sqlite.py lines 240-250):
INSERT OR REPLACE INTO story_cache keyed by md5 of
caption_stylekey_additionaltext joined with underscores. -/
def save_story_prompt (md5 : String → String) (st : CacheState)
    (caption style_key additional_text prompt : String) : CacheState :=
  let cache_key := md5 (caption ++ "_" ++ style_key ++ "_" ++ additional_text)
  { st with story_cache := insertOrReplace st.story_cache cache_key prompt }

/-- WhiskCacheSQLite.get_story_prompt (cache_sqlite.py lines 223-238). -/
def get_story_prompt (md5 : String → String) (st : CacheState)
    (caption style_key additional_text : String) : Option String :=
  tableLookup st.story_cache
    (md5 (caption ++ "_" ++ style_key ++ "_" ++ additional_text))

/-! Embedding of the durable-write discipline of AuthService._save_tokens
(auth_service.py lines 100-121). The durable file is Option String (none
when missing). Opening with mode w truncates the file; json.dump then
writes the serialized store. There is no temporary file and no rename. -/

/-- An atomic step of the underlying file system during a save. -/
inductive FileOp where
  | truncate
  | writeAll (content : String)
deriving DecidableEq

/-- Effect of one file operation on the durable file. -/
def applyFileOp (file : Option String) : FileOp → Option String
  | FileOp.truncate => some ""
  | FileOp.writeAll content => some ((file.getD "") ++ content)

/-- Effect of a list of file operations, in order. -/
def runFileOps (file : Option String) (ops : List FileOp) : Option String :=
  ops.foldl applyFileOp file

/-- The steps _save_tokens performs on the tokens file: open(path, w)
truncates, then json.dump writes the serialized store. -/
def saveTokensOps (serialized : String) : List FileOp :=
  [FileOp.truncate, FileOp.writeAll serialized]

/-- Durable state when the process is interrupted after the first k steps
of a save. -/
def durableAfterInterrupt (file : Option String) (serialized : String)
    (k : Nat) : Option String :=
  runFileOps file ((saveTokensOps serialized).take k)

/-! Embedding of calculate_image_hash (image_service.py lines 18-41) for
string inputs. The file system is an explicit map from path to byte
content; sha256 hexdigest, the UTF-8 encoding of a string and base64
decoding are opaque parameters. -/

/-- File system contents: path to byte string. -/
structure FS where
  files : List (String × List Nat)
deriving DecidableEq

/-- Lookup of a path in the file system. -/
def fsLookup : List (String × List Nat) → String → Option (List Nat)
  | [], _ => none
  | (k, v) :: rest, p => if k = p then some v else fsLookup rest p

/-- os.path.exists on the explicit file system. -/
def FS.existsPath (fs : FS) (p : String) : Bool :=
  (fsLookup fs.files p).isSome

/-- open(p, rb).read() on the explicit file system. -/
def FS.readBytes (fs : FS) (p : String) : List Nat :=
  (fsLookup fs.files p).getD []

/-- calculate_image_hash (image_service.py lines 18-41) on a string input:
if the string names an existing file, hash that file's bytes; otherwise
try to base64-decode it and hash the decoded bytes; if decoding raises,
hash the UTF-8 encoding of the string itself. -/
def calculate_image_hash (sha256 : List Nat → String) (encode : String → List Nat)
    (b64decode : String → Option (List Nat)) (fs : FS) (image_data : String) : String :=
  if fs.existsPath image_data then
    sha256 (fs.readBytes image_data)
  else
    match b64decode image_data with
    | some img_bytes => sha256 img_bytes
    | none => sha256 (encode image_data)

/-! Concrete token states and argument lists, used to evaluate the engine
at specific inputs. -/

/-- A token past its quota (usage_count 5 of max 3) and past its usage
window at time 50, but inside its access window. -/
def tokC2 : AccessToken :=
  { token_id := "T", theme := "ice", usage_count := 5, max_usage_count := 3,
    created_at := 0, usage_valid_until := 10, access_valid_until := 100,
    used_image_hashes := [], used_styles := [], generation_records := [] }

def tokensC2 : TokenMap := [("T", tokC2)]

/-- A fresh token with quota 3, both windows open at times 10 and 11. -/
def tokC3 : AccessToken :=
  { token_id := "T", theme := "ice", usage_count := 0, max_usage_count := 3,
    created_at := 0, usage_valid_until := 100, access_valid_until := 100,
    used_image_hashes := [], used_styles := [], generation_records := [] }

def tokensC3 : TokenMap := [("T", tokC3)]

/-- A token whose committed fingerprint is A, inside its access window. -/
def tokC4 : AccessToken :=
  { token_id := "T", theme := "ice", usage_count := 1, max_usage_count := 3,
    created_at := 0, usage_valid_until := 100, access_valid_until := 100,
    used_image_hashes := ["A"], used_styles := ["s1"], generation_records := [] }

def tokensC4 : TokenMap := [("T", tokC4)]

/-- A demo sequence of record_image_usage calls, four distinct styles on
one token, all inside the validity windows. -/
def opsDemo : List UsageCall :=
  [ { now := 10, dt := "d", token_id := "T", image_hash := "A", style := "s1", outputs := [] },
    { now := 11, dt := "d", token_id := "T", image_hash := "A", style := "s2", outputs := [] },
    { now := 12, dt := "d", token_id := "T", image_hash := "B", style := "s3", outputs := [] },
    { now := 13, dt := "d", token_id := "T", image_hash := "C", style := "s4", outputs := [] } ]

/-- A single-use token (max_usage_count 1), both windows open. -/
def tokC9 : AccessToken :=
  { token_id := "T3", theme := "ice", usage_count := 0, max_usage_count := 1,
    created_at := 0, usage_valid_until := 100, access_valid_until := 100,
    used_image_hashes := [], used_styles := [], generation_records := [] }

def tokensC9 : TokenMap := [("T3", tokC9)]

/-- A token that is over quota, past its usage window, with a committed
fingerprint and all three styles used, yet inside its access window. -/
def tokC10 : AccessToken :=
  { token_id := "T", theme := "ice", usage_count := 5, max_usage_count := 1,
    created_at := 0, usage_valid_until := 10, access_valid_until := 100,
    used_image_hashes := ["A"], used_styles := ["x", "y", "z"],
    generation_records := [] }

def tokensC10 : TokenMap := [("T", tokC10)]

/-- A toy injective digest standing in for sha256 hexdigest, so that the
control flow of calculate_image_hash can be evaluated on concrete data. -/
def shaDemo (bs : List Nat) : String :=
  bs.foldl (fun acc n => acc ++ toString n ++ ";") "H"

/-- The UTF-8 encoding of a string as its character code points. -/
def encodeDemo (s : String) : List Nat :=
  s.data.map Char.toNat

/-- A base64 decoder that rejects every input, exercising the text branch
of calculate_image_hash. -/
def b64NoneDemo (_ : String) : Option (List Nat) := none

/-- A file system holding one file named img. -/
def fsWithImg : FS := { files := [("img", [1, 2, 3])] }

/-- The empty file system. -/
def fsEmpty : FS := { files := [] }

/-- A file system holding only an unrelated file. -/
def fsOther : FS := { files := [("other", [7])] }

/-- The update written back by a successful record_image_usage call. -/
def recordedToken (token : AccessToken) (now : Nat) (dt ih st : String)
    (outs : List String) : AccessToken :=
  ((token.add_image_hash ih).add_used_style st).add_generation_record
    { timestamp := now, datetime := dt, image_hash := ih, style := st,
      output_files := outs }

/-! Helper lemmas about the token operations. -/

theorem add_image_hash_usage_count (t : AccessToken) (h : String) :
    (t.add_image_hash h).usage_count = t.usage_count := by
  unfold AccessToken.add_image_hash
  split <;> rfl

theorem add_image_hash_used_styles (t : AccessToken) (h : String) :
    (t.add_image_hash h).used_styles = t.used_styles := by
  unfold AccessToken.add_image_hash
  split <;> rfl

theorem add_image_hash_access_valid_until (t : AccessToken) (h : String) :
    (t.add_image_hash h).access_valid_until = t.access_valid_until := by
  unfold AccessToken.add_image_hash
  split <;> rfl

theorem add_image_hash_generation_records (t : AccessToken) (h : String) :
    (t.add_image_hash h).generation_records = t.generation_records := by
  unfold AccessToken.add_image_hash
  split <;> rfl

theorem add_image_hash_mem (t : AccessToken) (h : String) :
    h ∈ (t.add_image_hash h).used_image_hashes := by
  unfold AccessToken.add_image_hash
  split
  · simp
  · next hmem => simpa using hmem

theorem add_image_hash_nodup (t : AccessToken) (h : String)
    (hnd : t.used_image_hashes.Nodup) :
    (t.add_image_hash h).used_image_hashes.Nodup := by
  unfold AccessToken.add_image_hash
  split
  · next hmem => simp [List.nodup_append, hnd, hmem]
  · exact hnd

theorem add_used_style_usage_count (t : AccessToken) (s : String) :
    (t.add_used_style s).usage_count = t.usage_count := by
  unfold AccessToken.add_used_style
  split <;> rfl

theorem add_used_style_used_image_hashes (t : AccessToken) (s : String) :
    (t.add_used_style s).used_image_hashes = t.used_image_hashes := by
  unfold AccessToken.add_used_style
  split <;> rfl

theorem add_used_style_access_valid_until (t : AccessToken) (s : String) :
    (t.add_used_style s).access_valid_until = t.access_valid_until := by
  unfold AccessToken.add_used_style
  split <;> rfl

theorem add_used_style_generation_records (t : AccessToken) (s : String) :
    (t.add_used_style s).generation_records = t.generation_records := by
  unfold AccessToken.add_used_style
  split <;> rfl

theorem add_used_style_length_le (t : AccessToken) (s : String)
    (hle : t.used_styles.length ≤ 3) :
    (t.add_used_style s).used_styles.length ≤ 3 := by
  unfold AccessToken.add_used_style
  split
  · next hc =>
      have hlt : t.used_styles.length < 3 := by
        have := hc.2
        simpa [AccessToken.can_use_more_styles] using this
      simp
      omega
  · exact hle

theorem add_generation_record_usage_count (t : AccessToken) (r : GenRecord) :
    (t.add_generation_record r).usage_count = t.usage_count + 1 := rfl

theorem add_generation_record_used_styles (t : AccessToken) (r : GenRecord) :
    (t.add_generation_record r).used_styles = t.used_styles := rfl

theorem add_generation_record_used_image_hashes (t : AccessToken) (r : GenRecord) :
    (t.add_generation_record r).used_image_hashes = t.used_image_hashes := rfl

theorem add_generation_record_access_valid_until (t : AccessToken) (r : GenRecord) :
    (t.add_generation_record r).access_valid_until = t.access_valid_until := rfl

theorem add_generation_record_records_length (t : AccessToken) (r : GenRecord) :
    (t.add_generation_record r).generation_records.length
      = t.generation_records.length + 1 := by
  simp [AccessToken.add_generation_record]

/-! Helper lemmas about dictionary lookup and update. -/

theorem lookup_update_eq (m : TokenMap) (k : String) (v : AccessToken) :
    lookupToken (updateToken m k v) k = (lookupToken m k).map (fun _ => v) := by
  induction m with
  | nil => rfl
  | cons p rest ih =>
      obtain ⟨a, b⟩ := p
      by_cases hak : a = k
      · simp [updateToken, lookupToken, hak]
      · simp [updateToken, lookupToken, hak, ih]

theorem lookup_update_ne (m : TokenMap) (k k2 : String) (v : AccessToken)
    (hne : k2 ≠ k) :
    lookupToken (updateToken m k v) k2 = lookupToken m k2 := by
  induction m with
  | nil => rfl
  | cons p rest ih =>
      obtain ⟨a, b⟩ := p
      by_cases hak : a = k
      · have hkk2 : ¬ (k = k2) := fun h => hne h.symm
        simp [updateToken, lookupToken, hak, hkk2]
      · by_cases hak2 : a = k2
        · simp [updateToken, lookupToken, hak, hak2, hne]
        · simp [updateToken, lookupToken, hak, hak2, ih]

/-- record_image_usage either succeeds on an access-valid stored token and
writes back the recordedToken update, or fails leaving the store unchanged. -/
theorem record_image_usage_shape (tokens : TokenMap) (now : Nat)
    (dt tid ih st : String) (outs : List String) :
    (∃ token, lookupToken tokens tid = some token
      ∧ token.is_access_valid now = true
      ∧ record_image_usage tokens now dt tid ih st outs =
          (updateToken tokens tid (recordedToken token now dt ih st outs), true))
    ∨ record_image_usage tokens now dt tid ih st outs = (tokens, false) := by
  cases hl : lookupToken tokens tid with
  | none =>
      right
      simp [record_image_usage, validate_token, hl]
  | some token =>
      cases hacc : token.is_access_valid now with
      | false =>
          right
          simp [record_image_usage, validate_token, hl, hacc]
      | true =>
          left
          refine ⟨token, rfl, hacc, ?_⟩
          simp [record_image_usage, validate_token, hl, hacc, recordedToken]

/-! Field facts about the token written back by a successful record. -/

theorem recordedToken_usage_count (token : AccessToken) (now : Nat)
    (dt ih st : String) (outs : List String) :
    (recordedToken token now dt ih st outs).usage_count = token.usage_count + 1 := by
  unfold recordedToken
  rw [add_generation_record_usage_count, add_used_style_usage_count,
    add_image_hash_usage_count]

theorem recordedToken_styles_le (token : AccessToken) (now : Nat)
    (dt ih st : String) (outs : List String)
    (hle : token.used_styles.length ≤ 3) :
    (recordedToken token now dt ih st outs).used_styles.length ≤ 3 := by
  unfold recordedToken
  rw [add_generation_record_used_styles]
  refine add_used_style_length_le _ _ ?_
  rw [add_image_hash_used_styles]
  exact hle

theorem recordedToken_hashes_nodup (token : AccessToken) (now : Nat)
    (dt ih st : String) (outs : List String)
    (hnd : token.used_image_hashes.Nodup) :
    (recordedToken token now dt ih st outs).used_image_hashes.Nodup := by
  unfold recordedToken
  rw [add_generation_record_used_image_hashes, add_used_style_used_image_hashes]
  exact add_image_hash_nodup _ _ hnd

theorem recordedToken_access_valid_until (token : AccessToken) (now : Nat)
    (dt ih st : String) (outs : List String) :
    (recordedToken token now dt ih st outs).access_valid_until
      = token.access_valid_until := by
  unfold recordedToken
  rw [add_generation_record_access_valid_until, add_used_style_access_valid_until,
    add_image_hash_access_valid_until]

theorem recordedToken_records_length (token : AccessToken) (now : Nat)
    (dt ih st : String) (outs : List String) :
    (recordedToken token now dt ih st outs).generation_records.length
      = token.generation_records.length + 1 := by
  unfold recordedToken
  rw [add_generation_record_records_length, add_used_style_generation_records,
    add_image_hash_generation_records]

theorem recordedToken_mem_hash (token : AccessToken) (now : Nat)
    (dt ih st : String) (outs : List String) :
    ih ∈ (recordedToken token now dt ih st outs).used_image_hashes := by
  unfold recordedToken
  rw [add_generation_record_used_image_hashes, add_used_style_used_image_hashes]
  exact add_image_hash_mem _ _

/-- Equation for a successful record_image_usage call on an access-valid
stored token. -/
theorem record_success_eq (tokens : TokenMap) (now : Nat) (dt tid ih st : String)
    (outs : List String) (token : AccessToken)
    (hlook : lookupToken tokens tid = some token)
    (hacc : token.is_access_valid now = true) :
    record_image_usage tokens now dt tid ih st outs
      = (updateToken tokens tid (recordedToken token now dt ih st outs), true) := by
  simp [record_image_usage, validate_token, hlook, hacc, recordedToken]

/-! Invariant preservation along record_image_usage calls. -/

theorem stylesBounded_record (tokens : TokenMap) (now : Nat) (dt tid ih st : String)
    (outs : List String) (hinv : stylesBounded tokens) :
    stylesBounded (record_image_usage tokens now dt tid ih st outs).1 := by
  rcases record_image_usage_shape tokens now dt tid ih st outs with
    ⟨token, hl, _, heq⟩ | heq
  · have hfst : (record_image_usage tokens now dt tid ih st outs).1
        = updateToken tokens tid (recordedToken token now dt ih st outs) := by
      rw [heq]
    rw [hfst]
    intro tid2 t2 hl2
    by_cases htid : tid2 = tid
    · subst htid
      rw [lookup_update_eq, hl] at hl2
      simp at hl2
      rw [← hl2]
      exact recordedToken_styles_le _ _ _ _ _ _ (hinv tid2 token hl)
    · rw [lookup_update_ne _ _ _ _ htid] at hl2
      exact hinv tid2 t2 hl2
  · have hfst : (record_image_usage tokens now dt tid ih st outs).1 = tokens := by
      rw [heq]
    rw [hfst]
    exact hinv

theorem hashesNodup_record (tokens : TokenMap) (now : Nat) (dt tid ih st : String)
    (outs : List String) (hinv : hashesNodup tokens) :
    hashesNodup (record_image_usage tokens now dt tid ih st outs).1 := by
  rcases record_image_usage_shape tokens now dt tid ih st outs with
    ⟨token, hl, _, heq⟩ | heq
  · have hfst : (record_image_usage tokens now dt tid ih st outs).1
        = updateToken tokens tid (recordedToken token now dt ih st outs) := by
      rw [heq]
    rw [hfst]
    intro tid2 t2 hl2
    by_cases htid : tid2 = tid
    · subst htid
      rw [lookup_update_eq, hl] at hl2
      simp at hl2
      rw [← hl2]
      exact recordedToken_hashes_nodup _ _ _ _ _ _ (hinv tid2 token hl)
    · rw [lookup_update_ne _ _ _ _ htid] at hl2
      exact hinv tid2 t2 hl2
  · have hfst : (record_image_usage tokens now dt tid ih st outs).1 = tokens := by
      rw [heq]
    rw [hfst]
    exact hinv

theorem countOf_record (tokens : TokenMap) (now : Nat) (dt tid ih st : String)
    (outs : List String) (tid2 : String) :
    countOf (record_image_usage tokens now dt tid ih st outs).1 tid2
        = countOf tokens tid2
    ∨ countOf (record_image_usage tokens now dt tid ih st outs).1 tid2
        = countOf tokens tid2 + 1 := by
  rcases record_image_usage_shape tokens now dt tid ih st outs with
    ⟨token, hl, _, heq⟩ | heq
  · have hfst : (record_image_usage tokens now dt tid ih st outs).1
        = updateToken tokens tid (recordedToken token now dt ih st outs) := by
      rw [heq]
    by_cases htid : tid2 = tid
    · subst htid
      right
      rw [hfst]
      unfold countOf
      rw [lookup_update_eq, hl]
      simp [recordedToken_usage_count]
    · left
      rw [hfst]
      unfold countOf
      rw [lookup_update_ne _ _ _ _ htid]
  · left
    rw [heq]

/-! Sequence versions, by induction on the list of calls. -/

theorem stylesBounded_applyCalls (ops : List UsageCall) (tokens : TokenMap)
    (hinv : stylesBounded tokens) : stylesBounded (applyCalls tokens ops) := by
  induction ops generalizing tokens with
  | nil => exact hinv
  | cons c rest ih =>
      simp only [applyCalls]
      exact ih _ (stylesBounded_record tokens c.now c.dt c.token_id
        c.image_hash c.style c.outputs hinv)

theorem hashesNodup_applyCalls (ops : List UsageCall) (tokens : TokenMap)
    (hinv : hashesNodup tokens) : hashesNodup (applyCalls tokens ops) := by
  induction ops generalizing tokens with
  | nil => exact hinv
  | cons c rest ih =>
      simp only [applyCalls]
      exact ih _ (hashesNodup_record tokens c.now c.dt c.token_id
        c.image_hash c.style c.outputs hinv)

theorem countOf_le_applyCalls (ops : List UsageCall) (tokens : TokenMap)
    (tid : String) :
    countOf tokens tid ≤ countOf (applyCalls tokens ops) tid := by
  induction ops generalizing tokens with
  | nil => exact Nat.le_refl _
  | cons c rest ih =>
      have hstep := countOf_record tokens c.now c.dt c.token_id
        c.image_hash c.style c.outputs tid
      have htail := ih (record_image_usage tokens c.now c.dt c.token_id
        c.image_hash c.style c.outputs).1
      simp only [applyCalls]
      rcases hstep with h | h <;> omega

/-! Lookup after an INSERT OR REPLACE on a cache table. -/

theorem tableLookup_insertOrReplace (table : List (String × String))
    (key v : String) :
    tableLookup (insertOrReplace table key v) key = some v := by
  unfold insertOrReplace
  induction table with
  | nil => simp [tableLookup]
  | cons p rest ih =>
      obtain ⟨a, b⟩ := p
      by_cases hak : a = key
      · simp only [List.filter_cons]
        rw [if_neg (by simp [hak])]
        exact ih
      · simp only [List.filter_cons]
        rw [if_pos (by simp [hak])]
        simp only [List.cons_append, tableLookup]
        rw [if_neg hak]
        exact ih

/-! Claim theorems. -/

/-- C1 counterexample: put-if-absent fails on the code. Writing v1 then v2
under the same key leaves the caption cache and the prompt cache holding v2,
not v1, because save_caption and save_story_prompt issue INSERT OR REPLACE. -/
theorem C1_counterexample :
    get_caption (fun s => s)
        (save_caption (fun s => s)
          (save_caption (fun s => s) { caption_cache := [], story_cache := [] }
            "k" "v1") "k" "v2") "k" = some "v2"
    ∧ get_story_prompt (fun s => s)
        (save_story_prompt (fun s => s)
          (save_story_prompt (fun s => s) { caption_cache := [], story_cache := [] }
            "c" "s" "a" "v1") "c" "s" "a" "v2") "c" "s" "a" = some "v2"
    ∧ ("v2" : String) ≠ "v1" := by
  refine ⟨?_, ?_, ?_⟩ <;> decide

/-- C1 amended: the cache writes are last-write-wins, not insert-if-absent:
after saving v1 then v2 under the same key, the cache holds v2 for that key,
for both the caption cache and the prompt cache, over every key-derivation
function and prior cache state — an entry is overwritten in place. -/
theorem C1_last_write_wins (md5 : String → String) (st : CacheState)
    (b64 v1 v2 cap sk extra p1 p2 : String) :
    get_caption md5 (save_caption md5 (save_caption md5 st b64 v1) b64 v2) b64
      = some v2
    ∧ get_story_prompt md5
        (save_story_prompt md5 (save_story_prompt md5 st cap sk extra p1)
          cap sk extra p2) cap sk extra = some p2 := by
  constructor
  · simp [get_caption, save_caption, tableLookup_insertOrReplace]
  · simp [get_story_prompt, save_story_prompt, tableLookup_insertOrReplace]

/-- C2: for a stored token whose access window is valid but is_usage_valid
is false, can_generate_image reports quota exhaustion (已达到最大使用次数)
whenever usage_count has reached max_usage_count, even if the usage window
has also elapsed; the usage-window message (使用期已过期) is reported only
when usage_count is below max_usage_count, which forces
usage_valid_until ≤ now. -/
theorem C2_quota_reported_over_expiry (tokens : TokenMap) (now : Nat)
    (tid : String) (token : AccessToken)
    (hlook : lookupToken tokens tid = some token)
    (hacc : token.is_access_valid now = true)
    (huse : token.is_usage_valid now = false) :
    (token.max_usage_count ≤ token.usage_count →
      can_generate_image tokens now tid
        = (false, some "已达到最大使用次数", some token))
    ∧ (token.usage_count < token.max_usage_count →
      can_generate_image tokens now tid = (false, some "使用期已过期", some token)
      ∧ token.usage_valid_until ≤ now) := by
  have hval : validate_token tokens now tid = (true, none, some token) := by
    simp [validate_token, hlook, hacc]
  constructor
  · intro hq
    simp [can_generate_image, hval, huse, hq]
  · intro hlt
    have hq : ¬ (token.max_usage_count ≤ token.usage_count) := by omega
    have huntil : token.usage_valid_until ≤ now := by
      by_contra hcon
      have h1 : now < token.usage_valid_until := by omega
      rw [AccessToken.is_usage_valid] at huse
      simp [h1, hlt] at huse
    refine ⟨?_, huntil⟩
    simp [can_generate_image, hval, huse, hq]

/-- C2 witness: the over-quota demo token inside its access window at time
50 is rejected with the quota message. -/
theorem C2_witness :
    can_generate_image tokensC2 50 "T" = (false, some "已达到最大使用次数", some tokC2) :=
  (C2_quota_reported_over_expiry tokensC2 50 "T" tokC2 (by decide) (by decide)
    (by decide)).1 (by decide)

/-- C7 counterexample: interrupting the save after the truncating open and
before the write leaves an empty file — a durable state that is neither the
old complete store OLD nor the new complete store NEW, so the claimed
atomic replacement fails on the code. -/
theorem C7_counterexample :
    durableAfterInterrupt (some "OLD") "NEW" 1 ≠ some "OLD"
    ∧ durableAfterInterrupt (some "OLD") "NEW" 1 ≠ some "NEW" := by
  constructor <;> decide

/-- C7 amended: _save_tokens writes the serialized store in place with no
temp-then-rename discipline: an uninterrupted save leaves exactly the new
complete store, but an interruption between the truncating open and the
write leaves an empty file, so previously committed token data can be lost
mid-write. -/
theorem C7_save_not_atomic (file : Option String) (serialized : String) :
    runFileOps file (saveTokensOps serialized) = some serialized
    ∧ durableAfterInterrupt file serialized 1 = some "" := by
  constructor
  · rfl
  · rfl

/-- C8 counterexample: calculate_image_hash is not a pure function of its
string input: the same string img is hashed from a named file's bytes when
such a file exists and from the string's own content when it does not, so
equal inputs yield different digests under different filesystem states. -/
theorem C8_counterexample :
    calculate_image_hash shaDemo encodeDemo b64NoneDemo fsWithImg "img"
      ≠ calculate_image_hash shaDemo encodeDemo b64NoneDemo fsEmpty "img" := by
  decide

/-- C8 amended: the digest is deterministic only relative to the filesystem
state: for a string input that does not name an existing file the digest is
a pure function of the content alone (identical across filesystems), while a
string naming an existing file is hashed from that file's bytes instead. -/
theorem C8_pure_only_off_filesystem (sha256 : List Nat → String)
    (encode : String → List Nat) (b64decode : String → Option (List Nat))
    (fs1 fs2 : FS) (s : String)
    (h1 : fs1.existsPath s = false) (h2 : fs2.existsPath s = false) :
    calculate_image_hash sha256 encode b64decode fs1 s
      = calculate_image_hash sha256 encode b64decode fs2 s := by
  unfold calculate_image_hash
  rw [h1, h2]
  simp

/-- C8 witness: a string naming no file hashes identically on two different
filesystems. -/
theorem C8_witness :
    calculate_image_hash shaDemo encodeDemo b64NoneDemo fsEmpty "img"
      = calculate_image_hash shaDemo encodeDemo b64NoneDemo fsOther "img" :=
  C8_pure_only_off_filesystem shaDemo encodeDemo b64NoneDemo fsEmpty fsOther "img"
    (by decide) (by decide)

/-- C3 counterexample: a token that recorded a generation for fingerprint A
afterwards also holds the different fingerprint B — record_image_usage
enforces no one-image cap, so used_image_hashes grows to the two-element
list A, B. -/
theorem C3_counterexample :
    ((lookupToken
        (record_image_usage
          (record_image_usage tokensC3 10 "d" "T" "A" "s1" []).1
          11 "d" "T" "B" "s2" []).1 "T").map
      (fun t => t.used_image_hashes)) = some ["A", "B"]
    ∧ ("B" : String) ≠ "A" := by
  constructor
  · decide
  · decide

/-- C3 amended: used_image_hashes stays duplicate-free over every sequence
of record_image_usage calls (each fingerprint appears at most once), but it
is not capped at one element: add_image_hash appends any fingerprint not
already present, so a token that recorded fingerprint A can afterwards also
hold a different fingerprint B. -/
theorem C3_hashes_nodup_not_capped (tokens : TokenMap) (ops : List UsageCall)
    (hinv : hashesNodup tokens) :
    hashesNodup (applyCalls tokens ops)
    ∧ ∀ (t : AccessToken) (h : String),
        h ∈ (t.add_image_hash h).used_image_hashes :=
  ⟨hashesNodup_applyCalls ops tokens hinv, fun t h => add_image_hash_mem t h⟩

/-- C3 witness: the demo store keeps duplicate-free fingerprint lists
through the four-call demo sequence. -/
theorem C3_witness :
    hashesNodup (applyCalls tokensC3 opsDemo)
    ∧ ∀ (t : AccessToken) (h : String),
        h ∈ (t.add_image_hash h).used_image_hashes :=
  C3_hashes_nodup_not_capped tokensC3 opsDemo (by
    intro tid t hl
    simp only [tokensC3, lookupToken] at hl
    split at hl
    · cases hl
      decide
    · cases hl)

/-- C4: for a stored access-valid token whose committed fingerprint list is
the single element h, validate_image_hash accepts f exactly when f equals h
and rejects every other fingerprint with the mismatch message; with an
empty list every fingerprint is accepted. -/
theorem C4_image_identity (tokens : TokenMap) (now : Nat) (tid : String)
    (token : AccessToken) (f : String)
    (hlook : lookupToken tokens tid = some token)
    (hacc : token.is_access_valid now = true) :
    (∀ h, token.used_image_hashes = [h] →
      (((validate_image_hash tokens now tid f).1 = true) ↔ f = h)
      ∧ (f ≠ h → validate_image_hash tokens now tid f
          = (false, some "此令牌已用于其他图片，不能使用新图片")))
    ∧ (token.used_image_hashes = [] →
      validate_image_hash tokens now tid f = (true, none)) := by
  have hval : validate_token tokens now tid = (true, none, some token) := by
    simp [validate_token, hlook, hacc]
  constructor
  · intro h hh
    constructor
    · by_cases hf : f = h <;> simp [validate_image_hash, hval, hh, hf]
    · intro hf
      simp [validate_image_hash, hval, hh, hf]
  · intro hh
    simp [validate_image_hash, hval, hh]

/-- C4 witness: the demo token committed to fingerprint A rejects
fingerprint B with the mismatch message. -/
theorem C4_witness :
    validate_image_hash tokensC4 50 "T" "B"
      = (false, some "此令牌已用于其他图片，不能使用新图片") :=
  ((C4_image_identity tokensC4 50 "T" tokC4 "B" (by decide) (by decide)).1
    "A" (by decide)).2 (by decide)

/-- C5: used_styles never exceeds 3 entries over any sequence of
record_image_usage calls; the cap is enforced before appending — a token
already holding 3 styles is returned unchanged by add_used_style, and
add_used_style only ever leaves the list unchanged or appends the one new
style (never truncates), preserving distinctness of the entries. -/
theorem C5_style_cap (tokens : TokenMap) (ops : List UsageCall)
    (hinv : stylesBounded tokens) :
    stylesBounded (applyCalls tokens ops)
    ∧ (∀ (t : AccessToken) (s : String), 3 ≤ t.used_styles.length →
        t.add_used_style s = t)
    ∧ (∀ (t : AccessToken) (s : String),
        (t.add_used_style s).used_styles = t.used_styles
        ∨ (t.add_used_style s).used_styles = t.used_styles ++ [s])
    ∧ (∀ (t : AccessToken) (s : String), t.used_styles.Nodup →
        (t.add_used_style s).used_styles.Nodup) := by
  refine ⟨stylesBounded_applyCalls ops tokens hinv, ?_, ?_, ?_⟩
  · intro t s h3
    have hc : ¬ (s ∉ t.used_styles ∧ t.can_use_more_styles = true) := by
      intro hc
      have h2 := hc.2
      rw [AccessToken.can_use_more_styles] at h2
      simp at h2
      omega
    unfold AccessToken.add_used_style
    rw [if_neg hc]
  · intro t s
    unfold AccessToken.add_used_style
    split
    · right
      rfl
    · left
      rfl
  · intro t s hnd
    unfold AccessToken.add_used_style
    split
    · next hc => simp [List.nodup_append, hnd, hc.1]
    · exact hnd

/-- C5 witness: the demo store keeps every style list within the cap of 3
through the four-distinct-styles demo sequence. -/
theorem C5_witness :
    stylesBounded (applyCalls tokensC3 opsDemo) :=
  (C5_style_cap tokensC3 opsDemo (by
    intro tid t hl
    simp only [tokensC3, lookupToken] at hl
    split at hl
    · cases hl
      decide
    · cases hl)).1

/-- C6: usage_count is non-decreasing across any sequence of
record_image_usage calls, and one call either fails leaving the store
unchanged or succeeds incrementing the token's usage_count by exactly 1
while appending exactly one generation record. -/
theorem C6_usage_count_monotone (tokens : TokenMap) (ops : List UsageCall)
    (tid : String) :
    countOf tokens tid ≤ countOf (applyCalls tokens ops) tid
    ∧ ∀ (now : Nat) (dt ih st : String) (outs : List String),
        ((record_image_usage tokens now dt tid ih st outs).2 = false →
          (record_image_usage tokens now dt tid ih st outs).1 = tokens)
        ∧ ((record_image_usage tokens now dt tid ih st outs).2 = true →
          countOf (record_image_usage tokens now dt tid ih st outs).1 tid
            = countOf tokens tid + 1
          ∧ recordsLenOf (record_image_usage tokens now dt tid ih st outs).1 tid
            = recordsLenOf tokens tid + 1) := by
  refine ⟨countOf_le_applyCalls ops tokens tid, ?_⟩
  intro now dt ih st outs
  rcases record_image_usage_shape tokens now dt tid ih st outs with
    ⟨token, hl, _, heq⟩ | heq
  · constructor
    · intro hfalse
      rw [heq] at hfalse
      simp at hfalse
    · intro _
      have hfst : (record_image_usage tokens now dt tid ih st outs).1
          = updateToken tokens tid (recordedToken token now dt ih st outs) := by
        rw [heq]
      rw [hfst]
      constructor
      · unfold countOf
        rw [lookup_update_eq, hl]
        simp [recordedToken_usage_count]
      · unfold recordsLenOf
        rw [lookup_update_eq, hl]
        simp [recordedToken_records_length]
  · constructor
    · intro _
      rw [heq]
    · intro htrue
      rw [heq] at htrue
      simp at htrue

/-- C6 witness: usage_count for the demo token does not decrease over the
four-call demo sequence. -/
theorem C6_witness :
    countOf tokensC3 "T" ≤ countOf (applyCalls tokensC3 opsDemo) "T" :=
  (C6_usage_count_monotone tokensC3 opsDemo "T").1

/-- C9 counterexample: for the single-use token T3 (max_usage_count 1, open
windows), two successive record_image_usage calls — one possible
interleaving of two concurrent calls — both succeed and usage_count reaches
2, refuting the claim that exactly one succeeds and no interleaving yields
usage_count 2. -/
theorem C9_counterexample :
    (record_image_usage tokensC9 10 "d" "T3" "H" "A" []).2 = true
    ∧ (record_image_usage (record_image_usage tokensC9 10 "d" "T3" "H" "A" []).1
        11 "d" "T3" "H" "A" []).2 = true
    ∧ countOf (record_image_usage
        (record_image_usage tokensC9 10 "d" "T3" "H" "A" []).1
        11 "d" "T3" "H" "A" []).1 "T3" = 2
    ∧ tokC9.max_usage_count = 1 := by
  refine ⟨?_, ?_, ?_, ?_⟩ <;> decide

/-- C9 amended: record_image_usage checks neither quota nor exclusivity:
for any stored token whose access window covers both call times — including
one with max_usage_count 1 — two record_image_usage calls both succeed and
usage_count rises by exactly 2. -/
theorem C9_double_record_succeeds (tokens : TokenMap) (tid : String)
    (token : AccessToken) (now1 now2 : Nat) (dt1 dt2 ih1 ih2 st1 st2 : String)
    (o1 o2 : List String)
    (hlook : lookupToken tokens tid = some token)
    (hacc1 : now1 < token.access_valid_until)
    (hacc2 : now2 < token.access_valid_until) :
    (record_image_usage tokens now1 dt1 tid ih1 st1 o1).2 = true
    ∧ (record_image_usage (record_image_usage tokens now1 dt1 tid ih1 st1 o1).1
        now2 dt2 tid ih2 st2 o2).2 = true
    ∧ countOf (record_image_usage
        (record_image_usage tokens now1 dt1 tid ih1 st1 o1).1
        now2 dt2 tid ih2 st2 o2).1 tid = token.usage_count + 2 := by
  have hacc1b : token.is_access_valid now1 = true := by
    simp [AccessToken.is_access_valid, hacc1]
  have heq1 := record_success_eq tokens now1 dt1 tid ih1 st1 o1 token hlook hacc1b
  have hl2 : lookupToken (record_image_usage tokens now1 dt1 tid ih1 st1 o1).1 tid
      = some (recordedToken token now1 dt1 ih1 st1 o1) := by
    have hfst : (record_image_usage tokens now1 dt1 tid ih1 st1 o1).1
        = updateToken tokens tid (recordedToken token now1 dt1 ih1 st1 o1) := by
      rw [heq1]
    rw [hfst, lookup_update_eq, hlook]
    rfl
  have hacc2b : (recordedToken token now1 dt1 ih1 st1 o1).is_access_valid now2 = true := by
    simp [AccessToken.is_access_valid, recordedToken_access_valid_until, hacc2]
  have heq2 := record_success_eq
    (record_image_usage tokens now1 dt1 tid ih1 st1 o1).1 now2 dt2 tid ih2 st2 o2
    (recordedToken token now1 dt1 ih1 st1 o1) hl2 hacc2b
  refine ⟨by rw [heq1], by rw [heq2], ?_⟩
  have hfst2 : (record_image_usage
      (record_image_usage tokens now1 dt1 tid ih1 st1 o1).1
      now2 dt2 tid ih2 st2 o2).1
      = updateToken (record_image_usage tokens now1 dt1 tid ih1 st1 o1).1 tid
          (recordedToken (recordedToken token now1 dt1 ih1 st1 o1)
            now2 dt2 ih2 st2 o2) := by
    rw [heq2]
  rw [hfst2]
  unfold countOf
  rw [lookup_update_eq, hl2]
  simp [recordedToken_usage_count]

/-- C9 witness: for the single-use demo token T3 both calls succeed and
usage_count reaches 2. -/
theorem C9_witness :
    (record_image_usage tokensC9 10 "d" "T3" "H1" "A" []).2 = true
    ∧ (record_image_usage (record_image_usage tokensC9 10 "d" "T3" "H1" "A" []).1
        11 "d" "T3" "H2" "B" []).2 = true
    ∧ countOf (record_image_usage
        (record_image_usage tokensC9 10 "d" "T3" "H1" "A" []).1
        11 "d" "T3" "H2" "B" []).1 "T3" = 2 :=
  C9_double_record_succeeds tokensC9 "T3" tokC9 10 11 "d" "d" "H1" "H2" "A" "B"
    [] [] (by decide) (by decide) (by decide)

/-- C10: record_image_usage checks only token existence and access-window
validity: for any stored access-valid token it returns True, increments
usage_count by exactly 1, and commits the given fingerprint into
used_image_hashes — with no quota, usage-window, image-identity or
style-limit hypothesis, so it can drive usage_count above max_usage_count
and commit a fingerprint different from the one already committed. -/
theorem C10_record_unconditional (tokens : TokenMap) (now : Nat)
    (dt tid f st : String) (outs : List String) (token : AccessToken)
    (hlook : lookupToken tokens tid = some token)
    (hacc : token.is_access_valid now = true) :
    (record_image_usage tokens now dt tid f st outs).2 = true
    ∧ countOf (record_image_usage tokens now dt tid f st outs).1 tid
        = token.usage_count + 1
    ∧ ∃ t2, lookupToken (record_image_usage tokens now dt tid f st outs).1 tid
        = some t2 ∧ f ∈ t2.used_image_hashes := by
  have heq := record_success_eq tokens now dt tid f st outs token hlook hacc
  have hfst : (record_image_usage tokens now dt tid f st outs).1
      = updateToken tokens tid (recordedToken token now dt f st outs) := by
    rw [heq]
  refine ⟨by rw [heq], ?_, ?_⟩
  · rw [hfst]
    unfold countOf
    rw [lookup_update_eq, hlook]
    simp [recordedToken_usage_count]
  · refine ⟨recordedToken token now dt f st outs, ?_, recordedToken_mem_hash _ _ _ _ _ _⟩
    rw [hfst, lookup_update_eq, hlook]
    rfl

/-- C10 witness: the demo token is over quota (usage_count 5 of max 1), past
its usage window, committed to fingerprint A with all 3 styles used — yet
recording fingerprint B succeeds and drives usage_count to 6. -/
theorem C10_witness :
    (record_image_usage tokensC10 50 "d" "T" "B" "s9" []).2 = true
    ∧ countOf (record_image_usage tokensC10 50 "d" "T" "B" "s9" []).1 "T" = 6
    ∧ ∃ t2, lookupToken (record_image_usage tokensC10 50 "d" "T" "B" "s9" []).1 "T"
        = some t2 ∧ "B" ∈ t2.used_image_hashes :=
  C10_record_unconditional tokensC10 50 "d" "T" "B" "s9" [] tokC10
    (by decide) (by decide)

end QRRag
